import Mathlib

/-!
# CountCraft statistics engine — formal model

A shallow embedding of the CountCraft statistics computation engine
(`src/utils.ts`, `src/counter.ts`, `src/interfaces.ts`), together with
theorems settling the specification claims about it.

Modelling conventions:
* JavaScript strings are Lean `String`s; `String.length` in JS counts UTF-16
  code units, modelled by `utf16Length`.
* The regex character class `\s` and JS line terminators are modelled by
  `isJsSpace` / `isLineTerm`, following the ECMAScript definitions.
* JS objects with integer-like keys (the `headingsByLevel` map) iterate their
  keys in ascending numeric order; they are modelled as association lists kept
  sorted by key (`bumpLevel` inserts in order).
* JS objects with plain string keys (`CountResult`, the frontmatter property
  map) iterate in insertion order, with assignment to an existing key keeping
  its position; modelled by `setKey` on association lists.
* `async` functions that can throw return `Option`; `none` models a thrown
  exception escaping the function.
* The external markdown renderer (`MarkdownRenderer.render` + `innerText` in
  `calculateBaseStats`) is an out-of-scope collaborator and is modelled as an
  arbitrary total function `render : String → String` passed as a parameter.
-/

/-- ECMAScript `\s` character class (also used by `String.prototype.trim`):
tab, LF, VT, FF, CR, space, NBSP, and the Unicode space separators,
line/paragraph separators and BOM. -/
def isJsSpace (c : Char) : Bool :=
  c == '\t' || c == '\n' || c == '\x0b' || c == '\x0c' || c == '\r' || c == ' ' ||
  c == '\u00A0' || c == '\u1680' || ('\u2000' <= c && c <= '\u200A') ||
  c == '\u2028' || c == '\u2029' || c == '\u202F' || c == '\u205F' ||
  c == '\u3000' || c == '\uFEFF'

/-- ECMAScript line terminators: LF, CR, LINE SEPARATOR, PARAGRAPH SEPARATOR.
The regex metacharacter `.` matches exactly the characters outside this set. -/
def isLineTerm (c : Char) : Bool :=
  c == '\n' || c == '\r' || c == '\u2028' || c == '\u2029'

/-- ECMAScript `\w` (word character): ASCII letter, ASCII digit or underscore. -/
def isWordChar (c : Char) : Bool :=
  c.isAlpha || c.isDigit || c == '_'

/-- `String.prototype.trim` on a character list: drop `\s`-characters from both
ends (JS trim removes white space and line terminators, i.e. `isJsSpace`). -/
def jsTrimList (l : List Char) : List Char :=
  ((l.dropWhile isJsSpace).reverse.dropWhile isJsSpace).reverse

/-- `String.prototype.trim`. -/
def jsTrim (s : String) : String :=
  ⟨jsTrimList s.data⟩

/-- JS `String.length` counts UTF-16 code units: astral code points count 2. -/
def utf16Length (s : String) : Nat :=
  (s.data.map (fun c => if c.val < 0x10000 then 1 else 2)).sum

/-- Splitting on the regex `/\r?\n/`, as used by `getFileBody`, `countLines`
and `extractHeadings`: a separator is either `"\r\n"` or a bare `"\n"`; a
lone `'\r'` does not separate.  The accumulator holds the current segment
reversed. -/
def splitLinesAux : List Char → List Char → List (List Char)
  | [], acc => [acc.reverse]
  | '\r' :: '\n' :: rest, acc => acc.reverse :: splitLinesAux rest []
  | '\n' :: rest, acc => acc.reverse :: splitLinesAux rest []
  | c :: rest, acc => splitLinesAux rest (c :: acc)

/-- `text.split(/\r?\n/)`. -/
def splitLines (s : String) : List String :=
  (splitLinesAux s.data []).map (fun l => ⟨l⟩)

/-- Counts maximal word-character runs while scanning; `inWord` records
whether the previous character was a word character.  This is the match count
of the global regex `/\b\w+\b/g`, whose matches are exactly the maximal
word-character runs. -/
def countWordsAux : List Char → Bool → Nat
  | [], _ => 0
  | c :: rest, inWord =>
    if isWordChar c then (if inWord then 0 else 1) + countWordsAux rest true
    else countWordsAux rest false

/-- `TextAnalyzer.countWords` (utils.ts:130): `text.match(/\b\w+\b/g)` length,
i.e. the number of maximal word-character runs. -/
def countWords (text : String) : Nat :=
  countWordsAux text.data false

/-- `TextAnalyzer.countCharactersWithSpaces` (utils.ts:138): `text.length`. -/
def countCharactersWithSpaces (text : String) : Nat :=
  utf16Length text

/-- `TextAnalyzer.countCharactersWithoutSpaces` (utils.ts:145):
`text.replace(/\s/g, '').length`. -/
def countCharactersWithoutSpaces (text : String) : Nat :=
  utf16Length ⟨text.data.filter (fun c => !isJsSpace c)⟩

/-- `TextAnalyzer.countLines` (utils.ts:152): `0` for the empty string
(the only falsy string is `""`); otherwise `text.split(/\r?\n/).length`. -/
def countLines (text : String) : Nat :=
  if text.isEmpty then 0 else (splitLines text).length

/-- Length of the run of leading `'#'` characters. -/
def hashRun (l : List Char) : Nat :=
  (l.takeWhile (· == '#')).length

/-- Matching `\s+(.+)$` against `r` with the regex engine's greedy
backtracking: `\s+` first tries the whole whitespace prefix (the fuel `n` is
called with that prefix's length) and backs off one character at a time; a
candidate split succeeds when the remainder is non-empty and free of line
terminators (which `.` cannot match, and `$` only matches at the very end).
Returns capture group 2. -/
def trySplit (r : List Char) : Nat → Option (List Char)
  | 0 => none
  | i + 1 =>
    let t := r.drop (i + 1)
    if !t.isEmpty && t.all (fun c => !isLineTerm c) then some t
    else trySplit r i

/-- `line.match(/^(#{1,6})\s+(.+)$/)` (utils.ts:165), returning
(level, capture group 2) on success.  `#{1,6}` takes the leading hash run
(a shorter run cannot help the match, since the following character would then
be `'#'`, which `\s+` rejects); more than six leading hashes therefore never
match. -/
def headingMatch (line : List Char) : Option (Nat × List Char) :=
  let k := hashRun line
  if k < 1 || 6 < k then none
  else
    let r := line.drop k
    match trySplit r (r.takeWhile isJsSpace).length with
    | some t => some (k, t)
    | none => none

/-- `HeadingInfo` (interfaces.ts:23). -/
structure HeadingInfo where
  level : Nat
  heading : String
  line : Nat
  deriving DecidableEq

/-- `TextAnalyzer.extractHeadings` (utils.ts:160): per line of
`text.split(/\r?\n/)`, match `/^(#{1,6})\s+(.+)$/` and record level, trimmed
capture and 1-based line number. -/
def extractHeadings (text : String) : List HeadingInfo :=
  (splitLines text).enum.filterMap (fun p =>
    match headingMatch p.2.data with
    | some (k, t) => some ⟨k, ⟨jsTrimList t⟩, p.1 + 1⟩
    | none => none)

/-- Increment the count of `lvl` in an association list kept sorted by key
in ascending order — JS objects iterate integer-like keys in ascending
numeric order, so this sorted list is the observable content of the
`{ [level: number]: number }` object. -/
def bumpLevel : List (Nat × Nat) → Nat → List (Nat × Nat)
  | [], lvl => [(lvl, 1)]
  | (k, v) :: rest, lvl =>
    if lvl == k then (k, v + 1) :: rest
    else if lvl < k then (lvl, 1) :: (k, v) :: rest
    else (k, v) :: bumpLevel rest lvl

/-- `TextAnalyzer.countHeadingsByLevel` (utils.ts:181): fold the extracted
headings into a level → count object via `counts[level] = (counts[level] || 0) + 1`. -/
def countHeadingsByLevel (text : String) : List (Nat × Nat) :=
  (extractHeadings text).foldl (fun m h => bumpLevel m h.level) []

/-- `CounterType` (interfaces.ts:38): the closed enumeration of counter kinds. -/
inductive CounterType where
  | wordCount
  | charCountWithSpaces
  | charCountWithoutSpaces
  | lineCount
  | headingCount
  | headingLevelCount
  deriving DecidableEq

/-- The `parameter?: string | number` field of a counter configuration.  Both
consumers (`validateCounterConfig` and `getCountForType`) use the parameter
only through the JS `Number()` coercion, so a parameter is modelled by that
coercion's outcome: `numVal q` is a parameter coercing to the (non-NaN) number
`q` (JS doubles embed into `ℚ`); `nanVal` is a parameter whose coercion is NaN
(e.g. a non-numeric string). -/
inductive Param where
  | numVal (q : ℚ)
  | nanVal
  deriving DecidableEq

/-- JS `Number()` coercion of a parameter; `none` is NaN. -/
def Param.toNum : Param → Option ℚ
  | numVal q => some q
  | nanVal => none

/-- `CounterConfig` (interfaces.ts:3).  The `type` field is an `Option` because
the validator checks `!config.type` and the counter's `switch` has a default
branch: `none` models a runtime value outside the enumeration (the falsy empty
string). -/
structure CounterConfig where
  id : String
  name : String
  type : Option CounterType
  property : String
  enabled : Bool
  parameter : Option Param
  deriving DecidableEq

/-- `FileStats` (interfaces.ts:29). -/
structure FileStats where
  wordCount : Nat
  charCountWithSpaces : Nat
  charCountWithoutSpaces : Nat
  lineCount : Nat
  headingCount : Nat
  headingsByLevel : List (Nat × Nat)
  deriving DecidableEq

/-- A JS object used as a string-keyed record of numbers (`CountResult`,
interfaces.ts:19, and a file's frontmatter property map). -/
abbrev KeyMap : Type := List (String × Nat)

/-- JS property assignment `m[k] = v`: overwrite in place if the key exists
(keys keep their insertion position), else append. -/
def setKey (m : KeyMap) (k : String) (v : Nat) : KeyMap :=
  if m.any (fun kv => kv.1 == k) then
    m.map (fun kv => if kv.1 == k then (k, v) else kv)
  else m ++ [(k, v)]

/-- JS property read `m[k]` as an `Option`. -/
def lookupKey (m : KeyMap) (k : String) : Option Nat :=
  (m.find? (fun kv => kv.1 == k)).map (fun kv => kv.2)

/-- `stats.headingsByLevel[level] || 0` where `level` is a JS number: the
object's keys are the integer heading levels, so a non-integral or negative
`level` finds nothing; a missing key (or stored 0) yields 0. -/
def lookupLevel (m : List (Nat × Nat)) (q : ℚ) : Nat :=
  match m.find? (fun kv => (kv.1 : ℚ) == q) with
  | some kv => kv.2
  | none => 0

/-- `frontmatterPosition` span from the host metadata cache: `start.line` and
`end.line` of the front-matter block. -/
structure Span where
  startLine : Nat
  endLine : Nat
  deriving DecidableEq

/-- One entry of `cache.headings` (the host's `HeadingCache`): heading level
and `position.start.line`. -/
structure HeadingCache where
  level : Nat
  startLine : Nat
  deriving DecidableEq

/-- The host's `CachedMetadata` as consumed by the engine: the front-matter
position and the heading list, each possibly absent. -/
structure CachedMetadata where
  frontmatterPosition : Option Span
  headings : Option (List HeadingCache)
  deriving DecidableEq

/-- A document (`TFile` plus its host-side state as consumed by the engine):
`content` is the raw file content, `none` modelling an unreadable file
(`vault.cachedRead` throws); `cache` is `metadataCache.getFileCache(file)`,
`none` modelling a `null` cache. -/
structure Doc where
  content : Option String
  cache : Option CachedMetadata
  deriving DecidableEq

/-- `cache?.frontmatterPosition` for a document. -/
def fmPosOf (d : Doc) : Option Span :=
  d.cache.bind (fun c => c.frontmatterPosition)

/-- `CacheHelper.getFileBody` (utils.ts:27): read the content; if the cache
supplies no front-matter position return it unchanged, else drop the lines
from `start.line` to `end.line` inclusive and rejoin with `'\n'`. -/
def getFileBody (d : Doc) : Option String :=
  match d.content with
  | none => none
  | some content =>
    match fmPosOf d with
    | none => some content
    | some fm =>
      let lines := splitLines content
      some (String.intercalate "\n"
        (lines.take fm.startLine ++ lines.drop (fm.endLine + 1)))

/-- `CacheHelper.getCachedHeadings` (utils.ts:66): the cached headings whose
start line is strictly after the front-matter end line (`?? -1` when there is
no front matter or no cache). -/
def getCachedHeadings (d : Doc) : List HeadingCache :=
  let fmEnd : Int := match fmPosOf d with
    | some fm => (fm.endLine : Int)
    | none => -1
  ((d.cache.bind (fun c => c.headings)).getD []).filter
    (fun h => fmEnd < (h.startLine : Int))

/-- The distinct error messages `ValidationHelper.validateCounterConfig`
(utils.ts:78) can return (the four message strings are pairwise distinct for
every property name, so this inductive is observationally faithful). -/
inductive ValidationError where
  | propertyNameRequired
  | duplicateProperty (name : String)
  | typeRequired
  | parameterOutOfRange
  deriving DecidableEq

/-- `ValidationHelper.validateCounterConfig` (utils.ts:78).  Checks in order:
trimmed property non-empty; no existing config with a different id whose
stored (raw) `property` equals the candidate's trimmed property; type present;
and, when a parameter is defined and the type is `headingLevelCount`, that
`Number(parameter)` is not NaN and lies in [1,6]. -/
def validateCounterConfig (config : CounterConfig) (existingConfigs : List CounterConfig) :
    Option ValidationError :=
  let prop := jsTrim config.property
  if prop.isEmpty then some .propertyNameRequired
  else if existingConfigs.any (fun e => e.id != config.id && e.property == prop) then
    some (.duplicateProperty prop)
  else if config.type.isNone then some .typeRequired
  else
    match config.parameter with
    | some p =>
      if config.type == some .headingLevelCount then
        match p.toNum with
        | none => some .parameterOutOfRange
        | some level =>
          if level < 1 || 6 < level then some .parameterOutOfRange else none
      else none
    | none => none

/-- `CountCraftCounter.getCountForType` (counter.ts:102): project the scalar a
counter type requests from `FileStats`; `throw` is modelled by `Except.error`
with the thrown message. -/
def getCountForType (type : Option CounterType) (stats : FileStats)
    (parameter : Option Param) : Except String Nat :=
  match type with
  | some .wordCount => .ok stats.wordCount
  | some .charCountWithSpaces => .ok stats.charCountWithSpaces
  | some .charCountWithoutSpaces => .ok stats.charCountWithoutSpaces
  | some .lineCount => .ok stats.lineCount
  | some .headingCount => .ok stats.headingCount
  | some .headingLevelCount =>
    match parameter with
    | none => .error "Heading level parameter is required"
    | some p =>
      match p.toNum with
      | none => .error "Heading level must be between 1 and 6"
      | some level =>
        if level < 1 || 6 < level then
          .error "Heading level must be between 1 and 6"
        else .ok (lookupLevel stats.headingsByLevel level)
  | none => .error "Unknown counter type"

/-- `CountCraftCounter.calculateBaseStats` (counter.ts:72): word and character
counts on the rendered text (`render` models `MarkdownRenderer.render` +
`innerText`), line and heading counts on the raw body; `headingCount` is the
sum of the per-level counts. -/
def calculateBaseStats (render : String → String) (content : String) : FileStats :=
  let cleanText := render content
  let headingsByLevel := countHeadingsByLevel content
  { wordCount := countWords cleanText
    charCountWithSpaces := countCharactersWithSpaces cleanText
    charCountWithoutSpaces := countCharactersWithoutSpaces cleanText
    lineCount := countLines content
    headingCount := (headingsByLevel.map (fun kv => kv.2)).sum
    headingsByLevel := headingsByLevel }

/-- The per-config loop shared by `calculateFileStats` (counter.ts:40) and
`calculateFileStatsFromCache` (counter.ts:229): for each enabled config,
project the scalar, write it to the file's property map and record it in the
results; a per-config error is caught (logged/reported) and that config is
skipped, leaving both maps untouched.  Property writes
(`updateFileProperty`) always succeed in the model. -/
def processConfigs (stats : FileStats) :
    List CounterConfig → KeyMap → KeyMap → KeyMap × KeyMap
  | [], results, props => (results, props)
  | config :: rest, results, props =>
    match getCountForType config.type stats config.parameter with
    | .ok value =>
      processConfigs stats rest (setKey results config.property value)
        (setKey props config.property value)
    | .error _ => processConfigs stats rest results props

/-- `CountCraftCounter.calculateFileStats` (counter.ts:21): with no enabled
config return `{}` at once (before any content access); otherwise read the
body (a read failure escapes as a rethrown error, modelled by `none`), compute
base stats, and run the per-config loop.  Returns the `CountResult` and the
file's updated property map. -/
def calculateFileStats (render : String → String) (doc : Doc)
    (counterConfigs : List CounterConfig) (props : KeyMap) :
    Option (KeyMap × KeyMap) :=
  let enabledConfigs := counterConfigs.filter (fun c => c.enabled)
  if enabledConfigs.isEmpty then some ([], props)
  else
    match getFileBody doc with
    | none => none
    | some content =>
      some (processConfigs (calculateBaseStats render content) enabledConfigs [] props)

/-- The `Partial<FileStats>` accumulated from the cache in
`calculateFileStatsFromCache` (counter.ts:182): both fields are set together
exactly when the metadata cache exists and supplies at least one heading past
the front matter. -/
structure CacheDerived where
  headingsByLevel : Option (List (Nat × Nat))
  headingCount : Option Nat
  deriving DecidableEq

/-- Lines 181–197 of counter.ts: derive what the cache can supply. -/
def cacheDerivedStats (d : Doc) : CacheDerived :=
  match d.cache with
  | none => ⟨none, none⟩
  | some _ =>
    let ch := getCachedHeadings d
    if ch.isEmpty then ⟨none, none⟩
    else
      let hbl := ch.foldl (fun m h => bumpLevel m h.level) []
      ⟨some hbl, some ((hbl.map (fun kv => kv.2)).sum)⟩

/-- JS truthiness of `number | undefined`: falsy iff `undefined` or `0`. -/
def optNatFalsy : Option Nat → Bool
  | none => true
  | some n => n == 0

/-- Lines 200–207 of counter.ts: whether some enabled config needs the file
content (`!cachedResults.headingCount` is `optNatFalsy`; an object value, when
set, is always truthy). -/
def needsContentCalc (cr : CacheDerived) (enabledConfigs : List CounterConfig) : Bool :=
  enabledConfigs.any (fun config =>
    config.type == some .wordCount ||
    config.type == some .charCountWithSpaces ||
    config.type == some .charCountWithoutSpaces ||
    config.type == some .lineCount ||
    (config.type == some .headingCount && optNatFalsy cr.headingCount) ||
    (config.type == some .headingLevelCount && cr.headingsByLevel.isNone))

/-- The `FileStats` built from cached data only (counter.ts:216–223):
`cachedResults.headingCount || 0` and `cachedResults.headingsByLevel || {}`. -/
def cacheOnlyStats (cr : CacheDerived) : FileStats :=
  { wordCount := 0
    charCountWithSpaces := 0
    charCountWithoutSpaces := 0
    lineCount := 0
    headingCount := cr.headingCount.getD 0
    headingsByLevel := cr.headingsByLevel.getD [] }

/-- `CountCraftCounter.calculateFileStatsFromCache` (counter.ts:174): with no
enabled config return `{}`; derive heading data from the cache; if any enabled
config needs the content, read the body (a read failure is uncaught here,
modelled by `none`) and compute full base stats, else use the cache-only
stats; then run the same per-config loop. -/
def calculateFileStatsFromCache (render : String → String) (doc : Doc)
    (counterConfigs : List CounterConfig) (props : KeyMap) :
    Option (KeyMap × KeyMap) :=
  let enabledConfigs := counterConfigs.filter (fun c => c.enabled)
  if enabledConfigs.isEmpty then some ([], props)
  else
    let cr := cacheDerivedStats doc
    if needsContentCalc cr enabledConfigs then
      match getFileBody doc with
      | none => none
      | some content =>
        some (processConfigs (calculateBaseStats render content) enabledConfigs [] props)
    else
      some (processConfigs (cacheOnlyStats cr) enabledConfigs [] props)

/-- `CountCraftCounter.calculateAllFiles` (counter.ts:138): with no enabled
config, notify and return without a batch summary (`none`); otherwise run
`calculateFileStats` on every file sequentially, counting successes — a
per-file error is caught and logged and the loop continues.  Returns the final
summary `(processed, total)` together with each file's outcome (each file
carries its own property map). -/
def calculateAllFiles (render : String → String) (files : List (Doc × KeyMap))
    (counterConfigs : List CounterConfig) :
    Option (Nat × Nat × List (Option (KeyMap × KeyMap))) :=
  if (counterConfigs.filter (fun c => c.enabled)).isEmpty then none
  else
    let outcomes := files.foldl
      (fun acc fp => acc ++ [calculateFileStats render fp.1 counterConfigs fp.2]) []
    some (outcomes.countP (fun o => o.isSome), files.length, outcomes)

/-- Spec-side count of line-terminator occurrences, following the spec's
words for `countLines`: an occurrence is a bare line-feed or a
carriage-return + line-feed pair. -/
def specLineTerminatorCount : List Char → Nat
  | [] => 0
  | '\r' :: '\n' :: rest => specLineTerminatorCount rest + 1
  | '\n' :: rest => specLineTerminatorCount rest + 1
  | _ :: rest => specLineTerminatorCount rest

/-- Spec-side word count, following the spec's words for `countWords`: the
number of maximal runs of word characters bounded by non-word characters or
string edges, counted here as the number of positions starting a run (a word
character whose predecessor is absent or not a word character). -/
def specWordRuns (l : List Char) : Nat :=
  (l.zip (false :: l.map isWordChar)).countP
    (fun cp => isWordChar cp.1 && !cp.2)

/-- The heading-line condition as the claim for `extractHeadings` states it:
the line begins with 1–6 `'#'` characters immediately followed by at least one
whitespace character and then non-empty trailing content (some split of the
remainder into one or more whitespace characters followed by a non-empty
rest). -/
def specIsHeadingLineClaimed (l : List Char) : Bool :=
  let k := hashRun l
  let r := l.drop k
  1 ≤ k && k ≤ 6 && !(r.takeWhile isJsSpace).isEmpty && 2 ≤ r.length

/-- `extractHeadings` as the claim states it, recording level, trimmed
trailing content (trimming makes the whitespace/content split irrelevant, so
the whole remainder after the hash run is trimmed) and the 1-based line
number. -/
def specExtractHeadingsClaimed (text : String) : List HeadingInfo :=
  (splitLines text).enum.filterMap (fun p =>
    if specIsHeadingLineClaimed p.2.data then
      some ⟨hashRun p.2.data, ⟨jsTrimList (p.2.data.drop (hashRun p.2.data))⟩, p.1 + 1⟩
    else none)

/-- The amended heading-line condition: as claimed, but the non-empty trailing
content must in addition be free of line-terminator characters (carriage
return, line separator, paragraph separator — a line never contains a bare
line feed), since the regex `.` cannot match those. -/
def specIsHeadingLineAmended (l : List Char) : Bool :=
  let k := hashRun l
  let r := l.drop k
  1 ≤ k && k ≤ 6 &&
    (List.range (r.takeWhile isJsSpace).length).any (fun j =>
      let t := r.drop (j + 1)
      !t.isEmpty && t.all (fun c => !isLineTerm c))

/-- `extractHeadings` as amended: the heading predicate additionally requires
the trailing content to contain no line-terminator characters. -/
def specExtractHeadingsAmended (text : String) : List HeadingInfo :=
  (splitLines text).enum.filterMap (fun p =>
    if specIsHeadingLineAmended p.2.data then
      some ⟨hashRun p.2.data, ⟨jsTrimList (p.2.data.drop (hashRun p.2.data))⟩, p.1 + 1⟩
    else none)

/-- Group-2 candidate check for the backtracking in `trySplit`: the tail after
a whitespace prefix of length `j + 1` is non-empty and line-terminator-free. -/
def tailOK (r : List Char) (j : Nat) : Bool :=
  !(r.drop (j + 1)).isEmpty && (r.drop (j + 1)).all (fun c => !isLineTerm c)

/-! Concrete documents and counter configurations used as inputs of the
witness and counterexample theorems below. -/
def cfgHeadings : CounterConfig :=
  ⟨"cfg-h", "Headings", some .headingCount, "heading-count", true, none⟩

def cfgWords : CounterConfig :=
  ⟨"cfg-w", "Words", some .wordCount, "word-count-prop", true, none⟩

def cfgBadLevel : CounterConfig :=
  ⟨"cfg-bad", "H1s", some .headingLevelCount, "h1-count", true, some .nanVal⟩

def cfgDisabled : CounterConfig :=
  ⟨"cfg-d", "Off", some .wordCount, "w", false, none⟩

def docSimple : Doc := ⟨some "# t\nbody text", none⟩

def docUnreadable : Doc := ⟨none, none⟩

def docStaleCache : Doc := ⟨some "hello", some ⟨none, some [⟨1, 0⟩]⟩⟩

def docFreshCache : Doc := ⟨some "# A\nb", some ⟨none, some [⟨1, 0⟩]⟩⟩

def cfgExistingPadded : CounterConfig :=
  ⟨"id-a", "Existing", some .wordCount, " word-count ", true, none⟩

def cfgExistingExact : CounterConfig :=
  ⟨"id-a", "Existing", some .wordCount, "word-count", true, none⟩

def cfgCandidate : CounterConfig :=
  ⟨"id-b", "Candidate", some .wordCount, "word-count", true, none⟩

def cfgHalfLevel : CounterConfig :=
  ⟨"id-b", "HalfLevel", some .headingLevelCount, "hl-prop", true, some (.numVal (5 / 2))⟩

def cfgLevelNine : CounterConfig :=
  ⟨"id-b", "LevelNine", some .headingLevelCount, "hl-prop", true, some (.numVal 9)⟩


theorem splitLinesAux_cons_default (c : Char) (rest acc : List Char)
    (h1 : ∀ r', c = '\r' → rest = '\n' :: r' → False) (h2 : ¬ c = '\n') :
    splitLinesAux (c :: rest) acc = splitLinesAux rest (c :: acc) := by
  rw [splitLinesAux.eq_def]
  split
  · simp_all
  · rename_i r' heq
    injection heq with e1 e2
    exact (h1 r' e1 e2).elim
  · rename_i heq
    injection heq with e1 _
    exact absurd e1 h2
  · rename_i c' rest' h1' h2' heq
    injection heq with e1 e2
    subst e1; subst e2; rfl

theorem specLTC_cons_default (c : Char) (rest : List Char)
    (h1 : ∀ r', c = '\r' → rest = '\n' :: r' → False) (h2 : ¬ c = '\n') :
    specLineTerminatorCount (c :: rest) = specLineTerminatorCount rest := by
  rw [specLineTerminatorCount.eq_def]
  split
  · simp_all
  · rename_i r' heq
    injection heq with e1 e2
    exact (h1 r' e1 e2).elim
  · rename_i heq
    injection heq with e1 _
    exact absurd e1 h2
  · rename_i c' rest' h1' h2' heq
    injection heq with e1 e2
    subst e1; subst e2; rfl

theorem splitLinesAux_length (l acc : List Char) :
    (splitLinesAux l acc).length = specLineTerminatorCount l + 1 := by
  induction l, acc using splitLinesAux.induct with
  | case1 acc => simp [splitLinesAux, specLineTerminatorCount]
  | case2 rest acc ih => simpa [splitLinesAux, specLineTerminatorCount] using ih
  | case3 rest acc ih => simpa [splitLinesAux, specLineTerminatorCount] using ih
  | case4 c rest acc h1 h2 ih =>
    rw [splitLinesAux_cons_default c rest acc (by intro r' hc hr; exact h1 r' hc hr) (by intro hc; exact h2 hc),
        specLTC_cons_default c rest (by intro r' hc hr; exact h1 r' hc hr) (by intro hc; exact h2 hc)]
    exact ih

theorem countWordsAux_eq (l : List Char) :
    ∀ b, countWordsAux l b =
      (l.zip (b :: l.map isWordChar)).countP (fun cp => isWordChar cp.1 && !cp.2) := by
  induction l with
  | nil => intro b; simp [countWordsAux]
  | cons c rest ih =>
    intro b
    by_cases hw : isWordChar c
    · simp only [countWordsAux, hw, if_true, List.map_cons, List.zip_cons_cons,
        List.countP_cons, ih true]
      cases b <;> simp [hw]
      omega
    · simp only [countWordsAux, hw, if_false, List.map_cons, List.zip_cons_cons,
        List.countP_cons, ih false]
      simp [hw]

theorem trySplit_isSome (r : List Char) :
    ∀ n, (trySplit r n).isSome = (List.range n).any (tailOK r) := by
  intro n
  induction n with
  | zero => simp [trySplit]
  | succ i ih =>
    rw [List.range_succ]
    simp only [trySplit, List.any_append, List.any_cons, List.any_nil]
    by_cases h : tailOK r i = true
    · rw [if_pos (by simpa [tailOK] using h)]
      simp [h]
    · rw [if_neg (by simpa [tailOK] using h)]
      simp [ih, h]

theorem trySplit_eq_some (r t : List Char) :
    ∀ n, trySplit r n = some t → ∃ j, j < n ∧ t = r.drop (j + 1) := by
  intro n
  induction n with
  | zero => intro h; simp [trySplit] at h
  | succ i ih =>
    intro h
    rw [trySplit] at h
    split at h
    · exact ⟨i, Nat.lt_succ_self i, by injection h with h'; exact h'.symm⟩
    · obtain ⟨j, hj, ht⟩ := ih h
      exact ⟨j, Nat.lt_succ_of_lt hj, ht⟩

theorem dropWhile_drop_of_take_all (p : Char → Bool) :
    ∀ (i : Nat) (l : List Char), (l.take i).all p →
      (l.drop i).dropWhile p = l.dropWhile p := by
  intro i
  induction i with
  | zero => intro l _; simp
  | succ j ih =>
    intro l h
    cases l with
    | nil => simp
    | cons c rest =>
      simp only [List.take_succ_cons, List.all_cons, Bool.and_eq_true] at h
      rw [List.drop_succ_cons, ih rest h.2, List.dropWhile_cons_of_pos h.1]

theorem take_all_of_le_takeWhile (p : Char → Bool) :
    ∀ (l : List Char) (i : Nat), i ≤ (l.takeWhile p).length → (l.take i).all p := by
  intro l
  induction l with
  | nil => intro i _; simp
  | cons c rest ih =>
    intro i hi
    cases i with
    | zero => simp
    | succ j =>
      rw [List.takeWhile] at hi
      by_cases hc : p c
      · rw [hc] at hi
        simp only [List.length_cons, Nat.succ_le_succ_iff] at hi
        simp [hc, ih j hi]
      · simp [hc] at hi

theorem jsTrimList_drop (l : List Char) (i : Nat)
    (h : (l.take i).all isJsSpace) : jsTrimList (l.drop i) = jsTrimList l := by
  unfold jsTrimList
  rw [dropWhile_drop_of_take_all isJsSpace i l h]

theorem headingMatch_isSome (l : List Char) :
    (headingMatch l).isSome = specIsHeadingLineAmended l := by
  unfold headingMatch specIsHeadingLineAmended
  by_cases hk : (hashRun l < 1 || 6 < hashRun l) = true
  · rw [if_pos hk]
    simp only [Bool.or_eq_true, decide_eq_true_eq] at hk
    have h1 : (1 ≤ hashRun l && hashRun l ≤ 6) = false := by
      simp only [Bool.and_eq_false_iff, decide_eq_false_iff_not]
      omega
    simp [h1]
  · rw [if_neg hk]
    simp only [Bool.or_eq_true, decide_eq_true_eq, not_or, Nat.not_lt] at hk
    have h1 : decide (1 ≤ hashRun l) = true := by simpa using hk.1
    have h2 : decide (hashRun l ≤ 6) = true := by simpa using hk.2
    simp only [h1, h2, Bool.true_and]
    rw [show ((List.range (List.takeWhile isJsSpace (List.drop (hashRun l) l)).length).any
        (fun j =>
          let t := List.drop (j + 1) (List.drop (hashRun l) l)
          !t.isEmpty && t.all (fun c => !isLineTerm c))) =
        ((List.range (List.takeWhile isJsSpace (List.drop (hashRun l) l)).length).any
          (tailOK (List.drop (hashRun l) l))) from rfl]
    rw [← trySplit_isSome]
    cases htr : trySplit (List.drop (hashRun l) l)
        (List.takeWhile isJsSpace (List.drop (hashRun l) l)).length <;> simp [htr]

theorem headingMatch_eq_some (l : List Char) (k : Nat) (t : List Char)
    (h : headingMatch l = some (k, t)) :
    k = hashRun l ∧ ∃ j, j + 1 ≤ ((l.drop (hashRun l)).takeWhile isJsSpace).length ∧
      t = (l.drop (hashRun l)).drop (j + 1) := by
  unfold headingMatch at h
  by_cases hk : (hashRun l < 1 || 6 < hashRun l) = true
  · rw [if_pos hk] at h
    exact absurd h (by simp)
  · rw [if_neg hk] at h
    simp only [] at h
    cases htr : trySplit (List.drop (hashRun l) l)
        (List.takeWhile isJsSpace (List.drop (hashRun l) l)).length with
    | none => rw [htr] at h; exact absurd h (by simp)
    | some t' =>
      rw [htr] at h
      simp only [Option.some.injEq, Prod.mk.injEq] at h
      obtain ⟨hkk, htt⟩ := h
      obtain ⟨j, hj, ht'⟩ := trySplit_eq_some _ _ _ htr
      exact ⟨hkk.symm, j, hj, by rw [← htt, ht']⟩

/-- Claim C4, amended: `extractHeadings` records a line as a heading exactly
when the line begins with 1–6 `'#'` characters immediately followed by at
least one whitespace character and then non-empty trailing content that
contains no line-terminator characters, with level = number of leading `'#'`,
text = trimmed trailing content and a 1-based line number; lines with more
than 6 leading `'#'` or with no whitespace after the `'#'` run never match. -/
theorem C4_extractHeadings_amended (text : String) :
    extractHeadings text = specExtractHeadingsAmended text := by
  unfold extractHeadings specExtractHeadingsAmended
  apply List.filterMap_congr
  intro p _
  cases hm : headingMatch p.2.data with
  | none =>
    have hs : specIsHeadingLineAmended p.2.data = false := by
      rw [← headingMatch_isSome, hm]
      rfl
    simp [hs]
  | some kt =>
    obtain ⟨k, t⟩ := kt
    have hs : specIsHeadingLineAmended p.2.data = true := by
      rw [← headingMatch_isSome, hm]
      rfl
    obtain ⟨hk, j, hj, ht⟩ := headingMatch_eq_some _ _ _ hm
    rw [if_pos hs]
    subst hk
    subst ht
    show some (⟨hashRun p.2.data,
      ⟨jsTrimList (List.drop (j + 1) (List.drop (hashRun p.2.data) p.2.data))⟩,
      p.1 + 1⟩ : HeadingInfo) = _
    rw [jsTrimList_drop (p.2.data.drop (hashRun p.2.data)) (j + 1)
      (take_all_of_le_takeWhile isJsSpace _ _ hj)]

theorem processConfigs_congr (s₁ s₂ : FileStats) (l : List CounterConfig)
    (h : ∀ c ∈ l, getCountForType c.type s₁ c.parameter = getCountForType c.type s₂ c.parameter) :
    ∀ res props, processConfigs s₁ l res props = processConfigs s₂ l res props := by
  induction l with
  | nil => intro res props; rfl
  | cons c rest ih =>
    intro res props
    have hc := h c (List.mem_cons_self c rest)
    have hrest : ∀ d ∈ rest, getCountForType d.type s₁ d.parameter = getCountForType d.type s₂ d.parameter :=
      fun d hd => h d (List.mem_cons_of_mem c hd)
    simp only [processConfigs, hc]
    cases getCountForType c.type s₂ c.parameter with
    | ok v => exact ih hrest _ _
    | error e => exact ih hrest _ _

theorem processConfigs_skip_error (stats : FileStats) (c : CounterConfig)
    (hc : ∀ v, getCountForType c.type stats c.parameter ≠ .ok v) :
    ∀ (l₁ l₂ : List CounterConfig) (res props : KeyMap),
      processConfigs stats (l₁ ++ c :: l₂) res props = processConfigs stats (l₁ ++ l₂) res props := by
  intro l₁
  induction l₁ with
  | nil =>
    intro l₂ res props
    simp only [List.nil_append, processConfigs]
    cases hg : getCountForType c.type stats c.parameter with
    | ok v => exact absurd hg (hc v)
    | error e => rfl
  | cons d rest ih =>
    intro l₂ res props
    simp only [List.cons_append, processConfigs]
    cases getCountForType d.type stats d.parameter with
    | ok v => exact ih _ _ _
    | error e => exact ih _ _ _

theorem find?_map_overwrite (k k' : String) (v : Nat) (hne : k ≠ k') :
    ∀ m : KeyMap,
      (m.map (fun kv => if kv.1 == k then (k, v) else kv)).find? (fun kv => kv.1 == k') =
        m.find? (fun kv => kv.1 == k') := by
  intro m
  induction m with
  | nil => rfl
  | cons kv rest ih =>
    by_cases hk : kv.1 = k
    · have h1 : ((k : String) == k') = false := by simpa using hne
      have h2 : (kv.1 == k') = false := by simpa [hk] using hne
      have h3 : (kv.1 == k) = true := by simpa using hk
      rw [List.map_cons, if_pos h3]
      simp only [List.find?, h1, h2]
      exact ih
    · have h3 : (kv.1 == k) = false := by simpa using hk
      simp only [List.map_cons, h3, Bool.false_eq_true, if_false, List.find?]
      cases hkv : (kv.1 == k') with
      | true => rfl
      | false => simpa [hkv] using ih
  
theorem find?_append_single_miss (k k' : String) (v : Nat) (hne : k ≠ k') :
    ∀ m : KeyMap,
      (m ++ [(k, v)]).find? (fun kv => kv.1 == k') = m.find? (fun kv => kv.1 == k') := by
  intro m
  induction m with
  | nil =>
    have h1 : ((k : String) == k') = false := by simpa using hne
    simp [List.find?, h1]
  | cons kv rest ih =>
    simp only [List.cons_append, List.find?]
    cases hkv : (kv.1 == k') with
    | true => rfl
    | false => simpa [hkv] using ih

theorem lookupKey_setKey_ne (m : KeyMap) (k k' : String) (v : Nat) (h : k' ≠ k) :
    lookupKey (setKey m k v) k' = lookupKey m k' := by
  unfold setKey lookupKey
  by_cases hmem : m.any (fun kv => kv.1 == k)
  · rw [if_pos hmem, find?_map_overwrite k k' v (Ne.symm h)]
  · rw [if_neg hmem, find?_append_single_miss k k' v (Ne.symm h)]

theorem processConfigs_not_written (stats : FileStats) (k : String) :
    ∀ (l : List CounterConfig) (res props : KeyMap), (∀ d ∈ l, d.property ≠ k) →
      lookupKey (processConfigs stats l res props).1 k = lookupKey res k ∧
      lookupKey (processConfigs stats l res props).2 k = lookupKey props k := by
  intro l
  induction l with
  | nil => intro res props _; exact ⟨rfl, rfl⟩
  | cons d rest ih =>
    intro res props h
    have hd : d.property ≠ k := h d (List.mem_cons_self d rest)
    have hrest : ∀ e ∈ rest, e.property ≠ k := fun e he => h e (List.mem_cons_of_mem d he)
    simp only [processConfigs]
    cases getCountForType d.type stats d.parameter with
    | ok v =>
      have := ih (setKey res d.property v) (setKey props d.property v) hrest
      rw [this.1, this.2, lookupKey_setKey_ne res d.property k v (Ne.symm hd),
        lookupKey_setKey_ne props d.property k v (Ne.symm hd)]
      exact ⟨rfl, rfl⟩
    | error e => exact ih res props hrest

theorem cacheDerivedStats_cases (d : Doc) :
    cacheDerivedStats d = ⟨none, none⟩ ∨
    ∃ hbl, cacheDerivedStats d = ⟨some hbl, some ((hbl.map (fun kv => kv.2)).sum)⟩ := by
  unfold cacheDerivedStats
  cases d.cache with
  | none => exact Or.inl rfl
  | some c =>
    by_cases h : (getCachedHeadings d).isEmpty
    · rw [if_pos h]
      · exact Or.inl rfl
    · rw [if_neg h]
      exact Or.inr ⟨_, rfl⟩

theorem calculateFileStats_isSome (render : String → String) (doc : Doc)
    (configs : List CounterConfig) (props : KeyMap)
    (h : (configs.filter (fun c => c.enabled)).isEmpty = false) :
    (calculateFileStats render doc configs props).isSome = doc.content.isSome := by
  unfold calculateFileStats
  rw [if_neg (by simp [h])]
  unfold getFileBody
  cases doc.content with
  | none => rfl
  | some content =>
    cases fmPosOf doc with
    | none => rfl
    | some fm => rfl

theorem foldl_append_eq_map (f : Doc × KeyMap → Option (KeyMap × KeyMap)) :
    ∀ (l : List (Doc × KeyMap)) (acc : List (Option (KeyMap × KeyMap))),
      l.foldl (fun a x => a ++ [f x]) acc = acc ++ l.map f := by
  intro l
  induction l with
  | nil => intro acc; simp
  | cons x rest ih => intro acc; simp [ih]

-- C7
/-- Claim C7: `countLines` returns 0 for the empty string and, for every
non-empty string, the number of line-terminator occurrences (bare line feed or
carriage return + line feed) plus 1; in particular `countLines "a" = 1` and
`countLines "a\nb" = 2`. -/
theorem C7_countLines_terminators :
    countLines "" = 0 ∧
    (∀ s : String, s ≠ "" → countLines s = specLineTerminatorCount s.data + 1) ∧
    countLines "a" = 1 ∧ countLines "a\nb" = 2 := by
  refine ⟨rfl, ?_, rfl, rfl⟩
  intro s hs
  have hne : s.isEmpty = false := by
    rw [Bool.eq_false_iff]
    intro h
    exact hs ((String.isEmpty_iff s).1 h)
  unfold countLines splitLines
  rw [hne, if_neg (by simp), List.length_map, splitLinesAux_length]

/-- Witness for claim C7 at the concrete non-empty string `"a\nb"`. -/
theorem C7_witness : countLines "a\nb" = specLineTerminatorCount "a\nb".data + 1 :=
  C7_countLines_terminators.2.1 "a\nb" (by decide)

-- C8
/-- Claim C8: `countWords` counts the maximal runs of word characters
(letters, digits, underscore) bounded by non-word characters or string edges;
punctuation-only tokens contribute nothing, so `countWords "" = 0`,
`countWords "hello world" = 2` and `countWords "well-known term" = 3` (the
hyphen splits a run). -/
theorem C8_countWords_runs :
    (∀ s : String, countWords s = specWordRuns s.data) ∧
    countWords "" = 0 ∧ countWords "hello world" = 2 ∧ countWords "well-known term" = 3 := by
  refine ⟨?_, rfl, by decide, by decide⟩
  intro s
  exact countWordsAux_eq s.data false

-- C9
/-- Claim C9: for a readable document with no front-matter span supplied or
found, `getFileBody` returns the raw content unchanged. -/
theorem C9_getFileBody_identity (d : Doc) (c : String)
    (h1 : d.content = some c) (h2 : fmPosOf d = none) :
    getFileBody d = some c := by
  unfold getFileBody
  rw [h1, h2]

/-- Witness for claim C9 at a concrete cache-less document. -/
theorem C9_witness : getFileBody docSimple = some "# t\nbody text" :=
  C9_getFileBody_identity docSimple "# t\nbody text" rfl rfl

-- C10
/-- Claim C10: when the configuration list has no enabled config, both
`calculateFileStats` and `calculateFileStatsFromCache` return an empty result
map and the unchanged property map, for every document — including one whose
content is unreadable, which shows the content is never read. -/
theorem C10_no_enabled_noop (render : String → String) (doc : Doc)
    (configs : List CounterConfig) (props : KeyMap)
    (h : (configs.filter (fun c => c.enabled)).isEmpty = true) :
    calculateFileStats render doc configs props = some ([], props) ∧
    calculateFileStatsFromCache render doc configs props = some ([], props) := by
  unfold calculateFileStats calculateFileStatsFromCache
  rw [if_pos h]
  exact ⟨rfl, by rw [if_pos h]⟩

/-- Witness for claim C10 at an unreadable document, a disabled config and a
non-empty property map. -/
theorem C10_witness :
    calculateFileStats id docUnreadable [cfgDisabled] [("p", 7)] = some ([], [("p", 7)]) ∧
    calculateFileStatsFromCache id docUnreadable [cfgDisabled] [("p", 7)] = some ([], [("p", 7)]) :=
  C10_no_enabled_noop id docUnreadable [cfgDisabled] [("p", 7)] (by decide)

-- C3
/-- Claim C3: with at least one enabled config, a batch run returns normally
(no exception escapes), each file is processed with `calculateFileStats`
sequentially, and the final summary reports `(N-K)/N` processed, where `K` is
the number of documents whose content is unreadable. -/
theorem C3_batch_summary (render : String → String) (files : List (Doc × KeyMap))
    (configs : List CounterConfig)
    (h : (configs.filter (fun c => c.enabled)).isEmpty = false) :
    calculateAllFiles render files configs =
      some (files.length - files.countP (fun fp => fp.1.content.isNone),
        files.length,
        files.map (fun fp => calculateFileStats render fp.1 configs fp.2)) := by
  have hcount : (files.map (fun fp => calculateFileStats render fp.1 configs fp.2)).countP
      (fun o => o.isSome) = files.length - files.countP (fun fp => fp.1.content.isNone) := by
    rw [List.countP_map]
    have h1 : ∀ fp ∈ files, (((fun o => o.isSome) ∘
        (fun fp => calculateFileStats render fp.1 configs fp.2)) fp = true ↔
        (fun fp : Doc × KeyMap => !fp.1.content.isNone) fp = true) := by
      intro fp _
      have h2 : fp.1.content.isSome = !fp.1.content.isNone := by
        cases fp.1.content <;> rfl
      simp only [Function.comp_apply,
        calculateFileStats_isSome render fp.1 configs fp.2 h, h2]
    rw [List.countP_congr h1]
    have h2 := files.length_eq_countP_add_countP (fun fp => fp.1.content.isNone)
    have h4 : files.countP (fun fp => !fp.1.content.isNone) =
        files.countP (fun a => decide (¬ a.1.content.isNone = true)) :=
      List.countP_congr (by intro fp _; cases fp.1.content <;> simp)
    omega
  unfold calculateAllFiles
  rw [if_neg (by simp [h])]
  simp only [foldl_append_eq_map, List.nil_append, hcount]


/-- Witness for claim C3: a two-file batch with one unreadable file reports
1/2 processed. -/
theorem C3_witness :
    calculateAllFiles id [(docSimple, []), (docUnreadable, [])] [cfgHeadings] =
      some (1, 2, [some ([("heading-count", 1)], [("heading-count", 1)]), none]) :=
  (C3_batch_summary id [(docSimple, []), (docUnreadable, [])] [cfgHeadings]
    (by decide)).trans (by rfl)

/-- Claim C4 is false as stated: the single line `"# a\rb"` begins with one
`'#'` immediately followed by a whitespace character and then non-empty
trailing content, yet `extractHeadings` records no heading for it — the regex
`.` cannot match the embedded carriage return. -/
theorem C4_counterexample :
    extractHeadings "# a\rb" = [] ∧
    specExtractHeadingsClaimed "# a\rb" = [⟨1, "a\rb", 1⟩] := by decide

/-- Claim C1 is false as stated: for a document whose metadata cache reports
a heading that the content does not contain, the cache-assisted path writes 1
for a heading-count property while the full scan writes 0, so the two paths
disagree for that content and cache state. -/
theorem C1_counterexample :
    calculateFileStatsFromCache id docStaleCache [cfgHeadings] [] ≠
      calculateFileStats id docStaleCache [cfgHeadings] [] := by decide

/-- Claim C1, amended: for a document whose content is readable and whose
cached per-level heading counts — whenever the cache supplies headings past
the front matter — equal those obtained by scanning the extracted body,
`calculateFileStatsFromCache` produces the same per-property result map and
the same property writes as `calculateFileStats`. -/
theorem C1_cache_path_agrees (render : String → String) (doc : Doc)
    (configs : List CounterConfig) (props : KeyMap) (body : String)
    (hread : getFileBody doc = some body)
    (hcons : ∀ hbl, (cacheDerivedStats doc).headingsByLevel = some hbl →
      hbl = countHeadingsByLevel body) :
    calculateFileStatsFromCache render doc configs props =
      calculateFileStats render doc configs props := by
  unfold calculateFileStatsFromCache calculateFileStats
  by_cases hemp : (configs.filter (fun c => c.enabled)).isEmpty = true
  · rw [if_pos hemp, if_pos hemp]
  · rw [if_neg hemp, if_neg hemp, hread]
    by_cases hnc : needsContentCalc (cacheDerivedStats doc)
        (configs.filter (fun c => c.enabled)) = true
    · rw [if_pos hnc]
    · rw [if_neg hnc]
      congr 1
      apply processConfigs_congr
      intro c hc
      unfold needsContentCalc at hnc
      rw [Bool.not_eq_true, List.any_eq_false] at hnc
      have hdis := hnc c hc
      simp only [Bool.or_eq_false_iff, Bool.and_eq_false_iff, beq_eq_false_iff_ne,
        Bool.not_eq_true] at hdis
      obtain ⟨⟨⟨⟨⟨hw, hcs⟩, hcn⟩, hl⟩, hhc⟩, hhl⟩ := hdis
      cases htype : c.type with
      | none => rfl
      | some t =>
        cases t with
        | wordCount => exact absurd htype hw
        | charCountWithSpaces => exact absurd htype hcs
        | charCountWithoutSpaces => exact absurd htype hcn
        | lineCount => exact absurd htype hl
        | headingCount =>
          rcases hhc with hne | hfal
          · exact absurd htype hne
          · rcases cacheDerivedStats_cases doc with hcd | ⟨hbl, hcd⟩
            · rw [hcd] at hfal
              simp [optNatFalsy] at hfal
            · have hbleq : hbl = countHeadingsByLevel body := hcons hbl (by rw [hcd])
              simp only [getCountForType, cacheOnlyStats, calculateBaseStats, hcd,
                Option.getD_some, hbleq]
        | headingLevelCount =>
          rcases hhl with hne | hfal
          · exact absurd htype hne
          · rcases cacheDerivedStats_cases doc with hcd | ⟨hbl, hcd⟩
            · rw [hcd] at hfal
              simp at hfal
            · have hbleq : hbl = countHeadingsByLevel body := hcons hbl (by rw [hcd])
              simp only [getCountForType, cacheOnlyStats, calculateBaseStats, hcd,
                Option.getD_some, hbleq]

/-- Witness for claim C1 at a concrete document whose cache agrees with its
content. -/
theorem C1_witness :
    calculateFileStatsFromCache id docFreshCache [cfgHeadings] [] =
      calculateFileStats id docFreshCache [cfgHeadings] [] :=
  C1_cache_path_agrees id docFreshCache [cfgHeadings] [] "# A\nb" (by decide)
    (fun hbl h => by
      have h2 : ([(1, 1)] : List (Nat × Nat)) = hbl := Option.some.inj h
      rw [← h2]
      decide)

/-- Claim C2: in a single-document pass over a readable document, an enabled
`headingLevelCount` config whose parameter is undefined, NaN, or outside the
interval [1,6] aborts only itself: the pass equals the same pass without that
config, and — when no other enabled config reuses its property name — that
property is absent from the returned result and unchanged in the property
map, while every other enabled config is still projected and written. -/
theorem C2_failing_config_isolated (render : String → String) (doc : Doc) (body : String)
    (pre post : List CounterConfig) (c : CounterConfig) (props : KeyMap)
    (hread : getFileBody doc = some body)
    (hen : c.enabled = true)
    (htype : c.type = some .headingLevelCount)
    (hbad : c.parameter = none ∨ ∃ p, c.parameter = some p ∧
      (p.toNum = none ∨ ∃ q, p.toNum = some q ∧ (q < 1 ∨ 6 < q)))
    (hprop : ∀ d ∈ pre ++ post, d.enabled = true → d.property ≠ c.property) :
    calculateFileStats render doc (pre ++ c :: post) props =
      calculateFileStats render doc (pre ++ post) props ∧
    ∀ res props₂,
      calculateFileStats render doc (pre ++ c :: post) props = some (res, props₂) →
        lookupKey res c.property = none ∧
        lookupKey props₂ c.property = lookupKey props c.property := by
  have herr : ∀ (stats : FileStats) (v : Nat),
      getCountForType c.type stats c.parameter ≠ .ok v := by
    intro stats v hok
    rw [htype] at hok
    rcases hbad with hnone | ⟨p, hp, hbad2⟩
    · rw [hnone] at hok
      simp [getCountForType] at hok
    · rw [hp] at hok
      rcases hbad2 with hnan | ⟨q, hq, hrange⟩
      · simp [getCountForType, hnan] at hok
      · have hcond : (q < 1 || 6 < q) = true := by
          rcases hrange with h1 | h1 <;> simp [h1]
        simp [getCountForType, hq, hcond] at hok
  have hfilter : (pre ++ c :: post).filter (fun c => c.enabled) =
      pre.filter (fun c => c.enabled) ++ c :: post.filter (fun c => c.enabled) := by
    simp [List.filter_append, List.filter_cons, hen]
  have hfilter2 : (pre ++ post).filter (fun c => c.enabled) =
      pre.filter (fun c => c.enabled) ++ post.filter (fun c => c.enabled) := by
    simp [List.filter_append]
  have hmain : calculateFileStats render doc (pre ++ c :: post) props =
      some (processConfigs (calculateBaseStats render body)
        (pre.filter (fun c => c.enabled) ++ post.filter (fun c => c.enabled)) [] props) := by
    have hstep : calculateFileStats render doc (pre ++ c :: post) props =
        some (processConfigs (calculateBaseStats render body)
          (pre.filter (fun c => c.enabled) ++ c :: post.filter (fun c => c.enabled)) [] props) := by
      unfold calculateFileStats
      rw [hfilter, if_neg (by simp), hread]
    rw [hstep, processConfigs_skip_error (calculateBaseStats render body) c
      (herr (calculateBaseStats render body))]
  have hmain2 : calculateFileStats render doc (pre ++ post) props =
      some (processConfigs (calculateBaseStats render body)
        (pre.filter (fun c => c.enabled) ++ post.filter (fun c => c.enabled)) [] props) := by
    unfold calculateFileStats
    rw [hfilter2]
    by_cases hpp : (pre.filter (fun c => c.enabled) ++
        post.filter (fun c => c.enabled)).isEmpty = true
    · rw [if_pos hpp]
      rw [List.isEmpty_iff] at hpp
      rw [hpp]
      rfl
    · rw [if_neg hpp, hread]
  refine ⟨hmain.trans hmain2.symm, ?_⟩
  intro res props₂ heq
  rw [hmain] at heq
  have hnw : ∀ d ∈ pre.filter (fun c => c.enabled) ++ post.filter (fun c => c.enabled),
      d.property ≠ c.property := by
    intro d hd
    rcases List.mem_append.1 hd with hdp | hdp
    · exact hprop d (List.mem_append.2 (Or.inl (List.mem_of_mem_filter hdp)))
        (by simpa using List.of_mem_filter hdp)
    · exact hprop d (List.mem_append.2 (Or.inr (List.mem_of_mem_filter hdp)))
        (by simpa using List.of_mem_filter hdp)
  have hpres := processConfigs_not_written (calculateBaseStats render body) c.property
    (pre.filter (fun c => c.enabled) ++ post.filter (fun c => c.enabled)) [] props hnw
  have h1 : res = (processConfigs (calculateBaseStats render body)
      (pre.filter (fun c => c.enabled) ++ post.filter (fun c => c.enabled)) [] props).1 :=
    congrArg Prod.fst (Option.some.inj heq).symm
  have h2 : props₂ = (processConfigs (calculateBaseStats render body)
      (pre.filter (fun c => c.enabled) ++ post.filter (fun c => c.enabled)) [] props).2 :=
    congrArg Prod.snd (Option.some.inj heq).symm
  rw [h1, h2, hpres.1, hpres.2]
  exact ⟨rfl, rfl⟩

/-- Witness for claim C2: a failing heading-level config between two healthy
configs changes nothing. -/
theorem C2_witness :
    calculateFileStats id docSimple [cfgWords, cfgBadLevel, cfgHeadings] [] =
      calculateFileStats id docSimple [cfgWords, cfgHeadings] [] :=
  (C2_failing_config_isolated id docSimple "# t\nbody text" [cfgWords] [cfgHeadings]
    cfgBadLevel [] (by decide) rfl rfl (Or.inr ⟨.nanVal, rfl, Or.inl rfl⟩) (by decide)).1

/-- Claim C5 is false as stated: an existing config (different id) whose
stored property `" word-count "` has the same trimmed name as the candidate's
trimmed `"word-count"` does not trigger the duplicate error, because the
existing side is compared untrimmed. -/
theorem C5_counterexample :
    validateCounterConfig cfgCandidate [cfgExistingPadded] = none ∧
    jsTrim cfgExistingPadded.property = jsTrim cfgCandidate.property ∧
    cfgExistingPadded.id ≠ cfgCandidate.id := by
  refine ⟨by decide, by decide, by decide⟩

/-- Claim C5, amended: for a candidate whose trimmed property is non-empty,
`validateCounterConfig` reports the duplicate-property error exactly when some
config in the existing list with a different id has its stored property —
compared as stored, untrimmed — equal to the candidate's trimmed property; for
stores whose saved properties are already trimmed (the maintained invariant)
this coincides with the claimed trimmed-name comparison, and the particular
`"word-count"` examples hold. -/
theorem C5_duplicate_iff (config : CounterConfig) (existingConfigs : List CounterConfig)
    (htrim : (jsTrim config.property).isEmpty = false) :
    validateCounterConfig config existingConfigs =
        some (.duplicateProperty (jsTrim config.property)) ↔
      ∃ e ∈ existingConfigs, e.id ≠ config.id ∧ e.property = jsTrim config.property := by
  unfold validateCounterConfig
  rw [if_neg (by simp [htrim])]
  by_cases hdup : existingConfigs.any
      (fun e => e.id != config.id && e.property == jsTrim config.property) = true
  · rw [if_pos hdup]
    simp only [List.any_eq_true, Bool.and_eq_true, bne_iff_ne, beq_iff_eq] at hdup
    constructor
    · intro _
      exact hdup
    · intro _
      rfl
  · rw [if_neg hdup]
    simp only [List.any_eq_true, Bool.and_eq_true, bne_iff_ne, beq_iff_eq] at hdup
    constructor
    · intro hc
      exfalso
      by_cases ht : config.type.isNone = true
      · rw [if_pos ht] at hc
        simp at hc
      · rw [if_neg ht] at hc
        cases hp : config.parameter with
        | none =>
          rw [hp] at hc
          simp at hc
        | some p =>
          rw [hp] at hc
          simp only [] at hc
          by_cases hhl : (config.type == some CounterType.headingLevelCount) = true
          · rw [if_pos hhl] at hc
            cases hq : p.toNum with
            | none =>
              rw [hq] at hc
              simp at hc
            | some q =>
              rw [hq] at hc
              simp only [] at hc
              by_cases hr : (q < 1 || 6 < q) = true
              · rw [if_pos hr] at hc
                simp at hc
              · rw [if_neg hr] at hc
                simp at hc
          · rw [if_neg hhl] at hc
            simp at hc
    · intro hex
      exact absurd hex hdup

/-- Witness for claim C5: an existing stored `"word-count"` under a
different id makes the candidate `"word-count"` fail with the duplicate
error. -/
theorem C5_witness :
    validateCounterConfig cfgCandidate [cfgExistingExact] =
      some (.duplicateProperty "word-count") :=
  (C5_duplicate_iff cfgCandidate [cfgExistingExact] (by decide)).mpr
    ⟨cfgExistingExact, by decide, by decide, by decide⟩

/-- Claim C6 is false as stated: the defined parameter 5/2 of a
`headingLevelCount` candidate does not coerce to an integer in [1,6] (its
denominator is 2), yet `validateCounterConfig` reports no error, because the
code only checks NaN and the interval bounds, not integrality. -/
theorem C6_counterexample :
    validateCounterConfig cfgHalfLevel [] = none ∧
    cfgHalfLevel.parameter = some (.numVal (5 / 2)) ∧
    ((5 : ℚ) / 2).den = 2 := by
  refine ⟨?_, rfl, by norm_num [Rat.den]⟩
  unfold validateCounterConfig
  rw [if_neg (by decide), if_neg (by decide), if_neg (by decide)]
  show (match cfgHalfLevel.parameter with
    | some p =>
      if (cfgHalfLevel.type == some CounterType.headingLevelCount) = true then
        match p.toNum with
        | none => some ValidationError.parameterOutOfRange
        | some level =>
          if (level < 1 || 6 < level) = true then some ValidationError.parameterOutOfRange
          else none
      else none
    | none => none) = none
  show (if ((5 : ℚ) / 2 < 1 || 6 < (5 : ℚ) / 2) = true then
    some ValidationError.parameterOutOfRange else none) = none
  rw [if_neg (by norm_num)]

/-- Claim C6, amended: for a `headingLevelCount` candidate with a defined
parameter that passes the earlier checks, `validateCounterConfig` returns the
parameter-range error if and only if the coercion `Number(parameter)` is NaN
or lies outside the interval [1,6]; any number inside the interval, integer
or not, is accepted. -/
theorem C6_param_range_iff (config : CounterConfig) (existingConfigs : List CounterConfig)
    (p : Param)
    (htrim : (jsTrim config.property).isEmpty = false)
    (hdup : existingConfigs.any
      (fun e => e.id != config.id && e.property == jsTrim config.property) = false)
    (htype : config.type = some .headingLevelCount)
    (hparam : config.parameter = some p) :
    validateCounterConfig config existingConfigs = some .parameterOutOfRange ↔
      (p.toNum = none ∨ ∃ q, p.toNum = some q ∧ (q < 1 ∨ 6 < q)) := by
  unfold validateCounterConfig
  rw [if_neg (by simp [htrim]), if_neg (by simp [hdup]),
    if_neg (by simp [htype]), hparam]
  simp only []
  rw [if_pos (by simp [htype])]
  cases hq : p.toNum with
  | none => simp
  | some q =>
    simp only []
    by_cases hr : (q < 1 || 6 < q) = true
    · rw [if_pos hr]
      simp only [Bool.or_eq_true, decide_eq_true_eq] at hr
      constructor
      · intro _
        exact Or.inr ⟨q, rfl, hr⟩
      · intro _
        rfl
    · rw [if_neg hr]
      simp only [Bool.or_eq_true, decide_eq_true_eq, not_or, not_lt] at hr
      constructor
      · intro hc
        exact Option.noConfusion hc
      · intro hcon
        exfalso
        rcases hcon with hnan | ⟨q', hq', hrange⟩
        · exact Option.noConfusion hnan
        · obtain rfl := Option.some.inj hq'
          rcases hrange with h1 | h1
          · exact absurd h1 (by simpa using hr.1)
          · exact absurd h1 (by simpa using hr.2)

/-- Witness for claim C6: the out-of-range integer parameter 9 is
rejected. -/
theorem C6_witness :
    validateCounterConfig cfgLevelNine [] = some .parameterOutOfRange :=
  (C6_param_range_iff cfgLevelNine [] (.numVal 9) (by decide) (by decide) rfl rfl).mpr
    (Or.inr ⟨9, rfl, Or.inr (by norm_num)⟩)
